import Mathlib

/-!
Verification of the authentication/session-security core of the
`nestjs-prisma-jwt` backend, as implemented in `src/auth/auth.service.ts`.

The embedding models:
* bcrypt as a perfect salted hash: a digest records the plaintext it was
  derived from together with a salt nonce; comparison checks the plaintext.
* a JWT as a record of its claims, the key it was signed with, and its
  issued-at / expiry instants (milliseconds); verification succeeds exactly
  when the presented key equals the signing key and the token is unexpired.
* the Prisma store (tables `User` and `RefreshToken`) as lists inside a
  `Db` record, with a counter supplying fresh primary keys.
* each service method as a pure function from the pre-state and its inputs
  (the clock reading `now` and the salt nonces drawn by bcrypt are explicit
  arguments) to an outcome together with the post-state.

Clock values and durations are in milliseconds, mirroring `Date.now()`.
-/

namespace AuthCore

/-- A user row of the Prisma `User` table.  `password` holds the bcrypt
digest of the registration password, never the plaintext. -/
structure PwDigest where
  pre : String
  saltNonce : Nat
deriving DecidableEq

/-- `bcrypt.compare` for passwords: true exactly when the plaintext is the
one the digest was derived from (perfect-hash model, salt irrelevant). -/
def pwMatches (plain : String) (d : PwDigest) : Bool :=
  plain == d.pre

structure User where
  id : String
  email : String
  password : PwDigest
  name : String
deriving DecidableEq

/-- The minimal public profile `{ id, email, name }` selected by
`validateUser` and embedded in auth responses. -/
structure PublicUser where
  id : String
  email : String
  name : String
deriving DecidableEq

def publicOf (u : User) : PublicUser :=
  ⟨u.id, u.email, u.name⟩

/-- Claims of a refresh JWT as built by `generateTokens`:
`{ sub, type: 'refresh', tokenVersion: Date.now() }`. -/
structure RefreshClaims where
  sub : String
  type : String
  tokenVersion : Nat
deriving DecidableEq

/-- A signed token: claims, the signing key, issued-at and expiry. -/
structure SignedToken where
  claims : RefreshClaims
  key : String
  iat : Nat
  exp : Nat
deriving DecidableEq

/-- An access token (`{ sub, email }` signed with `JWT_SECRET`). -/
structure AccessToken where
  sub : String
  email : String
  key : String
  iat : Nat
  exp : Nat
deriving DecidableEq

/-- `jwtService.verify(token, { secret })`: the claims when the signature
key matches and the token is unexpired at `now`, otherwise `none`. -/
def verifySigned (t : SignedToken) (secret : String) (now : Nat) : Option RefreshClaims :=
  if t.key == secret && decide (now < t.exp) then some t.claims else none

/-- bcrypt digest of a refresh token, as stored in the `token` column. -/
structure TokenDigest where
  pre : SignedToken
  saltNonce : Nat
deriving DecidableEq

/-- `bcrypt.compare(presented, stored)` on refresh tokens. -/
def tokenMatches (plain : SignedToken) (d : TokenDigest) : Bool :=
  plain == d.pre

/-- A row of the Prisma `RefreshToken` table. -/
structure RefreshTokenRow where
  id : Nat
  token : TokenDigest
  userId : String
  expiresAt : Nat
deriving DecidableEq

/-- The persistent state: `User` and `RefreshToken` tables plus counters
supplying fresh primary keys. -/
structure Db where
  users : List User
  refreshTokens : List RefreshTokenRow
  nextUserNum : Nat
  nextRowId : Nat
deriving DecidableEq

def emptyDb : Db := ⟨[], [], 0, 0⟩

/-- Configuration: `JWT_SECRET`. -/
def jwtSecret : String := "access-signing-key"

/-- Configuration: `JWT_REFRESH_SECRET` (key separation from `jwtSecret`). -/
def jwtRefreshSecret : String := "refresh-signing-key"

/-- `JWT_EXPIRES_IN` default `15m`, in milliseconds. -/
def accessTtlMs : Nat := 15 * 60 * 1000

/-- `JWT_REFRESH_EXPIRES_IN` default `7d`, in milliseconds. -/
def refreshTtlMs : Nat := 7 * 24 * 60 * 60 * 1000

/-- Error outcomes thrown by the service.  The first six are the
`UnauthorizedException` / `ConflictException` instances of
`auth.service.ts` (distinguished by their message strings);
`recordNotFound` is the Prisma `P2025` error raised by
`refreshToken.delete` when the target row no longer exists, which the
service does not catch. -/
inductive AuthError where
  | invalidRefreshToken
  | invalidTokenType
  | noValidSession
  | reuseDetected
  | invalidCredentials
  | emailConflict
  | notFound
  | recordNotFound
deriving DecidableEq

/-- The HTTP error body NestJS serializes for a thrown exception. -/
structure HttpError where
  statusCode : Nat
  message : String
  error : String
deriving DecidableEq

/-- How each error surfaces at the API boundary.  The four refresh-path
`UnauthorizedException`s share status 401 and error name but carry the
distinct message strings of `auth.service.ts`; the uncaught Prisma error
surfaces as a 500. -/
def surface : AuthError → HttpError
  | .invalidRefreshToken => ⟨401, "Invalid refresh token", "Unauthorized"⟩
  | .invalidTokenType => ⟨401, "Invalid token type", "Unauthorized"⟩
  | .noValidSession => ⟨401, "No valid refresh token found", "Unauthorized"⟩
  | .reuseDetected => ⟨401, "Token reuse detected - all sessions revoked for security", "Unauthorized"⟩
  | .invalidCredentials => ⟨401, "Invalid credentials", "Unauthorized"⟩
  | .emailConflict => ⟨409, "Email already exists", "Conflict"⟩
  | .notFound => ⟨401, "Unauthorized", "Unauthorized"⟩
  | .recordNotFound => ⟨500, "Internal server error", "Internal Server Error"⟩

/-- The `{ accessToken, refreshToken, user }` response of `generateTokens`. -/
structure TokenPair where
  accessToken : AccessToken
  refreshToken : SignedToken
  user : PublicUser
deriving DecidableEq

/-- The refresh JWT minted at clock reading `now` for subject `uid`:
`sign({ sub, type: 'refresh', tokenVersion: Date.now() }, refreshSecret)`. -/
def refreshTokenFor (uid : String) (now : Nat) : SignedToken :=
  ⟨⟨uid, "refresh", now⟩, jwtRefreshSecret, now, now + refreshTtlMs⟩

/-- The access token minted at `now`: `sign({ sub, email }, secret)`. -/
def accessTokenFor (u : PublicUser) (now : Nat) : AccessToken :=
  ⟨u.id, u.email, jwtSecret, now, now + accessTtlMs⟩

/-- `AuthService.generateTokens`: mint the access and refresh tokens,
bcrypt-hash the refresh token with salt nonce `salt`, insert one
`RefreshToken` row for `u`, and return the pair with the post-state. -/
def generateTokens (db : Db) (u : PublicUser) (now salt : Nat) : TokenPair × Db :=
  let refreshToken := refreshTokenFor u.id now
  let row : RefreshTokenRow :=
    ⟨db.nextRowId, ⟨refreshToken, salt⟩, u.id, now + refreshTtlMs⟩
  (⟨accessTokenFor u now, refreshToken, u⟩,
   { db with refreshTokens := db.refreshTokens ++ [row],
             nextRowId := db.nextRowId + 1 })

def freshUserId (db : Db) : String :=
  "u" ++ toString db.nextUserNum

/-- `AuthService.register`: conflict if the email exists, else hash the
password (salt nonce `pwSalt`), create the user, and issue tokens. -/
def register (db : Db) (email password name : String) (now salt pwSalt : Nat) :
    Except AuthError TokenPair × Db :=
  if db.users.any (fun u => u.email == email) then
    (.error .emailConflict, db)
  else
    let user : User := ⟨freshUserId db, email, ⟨password, pwSalt⟩, name⟩
    let db1 : Db := { db with users := db.users ++ [user],
                              nextUserNum := db.nextUserNum + 1 }
    let res := generateTokens db1 (publicOf user) now salt
    (.ok res.1, res.2)

/-- `AuthService.login` instrumented with the number of `bcrypt.compare`
invocations it performs (its hashing work profile): `findUnique` by email,
throw `Invalid credentials` when absent (no compare), else one compare and
throw the same message on mismatch, else issue tokens. -/
def loginWithTrace (db : Db) (email password : String) (now salt : Nat) :
    (Except AuthError TokenPair × Db) × Nat :=
  match db.users.find? (fun u => u.email == email) with
  | none => ((.error .invalidCredentials, db), 0)
  | some user =>
    if pwMatches password user.password then
      let res := generateTokens db (publicOf user) now salt
      ((.ok res.1, res.2), 1)
    else
      ((.error .invalidCredentials, db), 1)

/-- `AuthService.login`: the observable outcome of `loginWithTrace`. -/
def login (db : Db) (email password : String) (now salt : Nat) :
    Except AuthError TokenPair × Db :=
  (loginWithTrace db email password now salt).1

/-- `AuthService.validateUser`: `findUnique` by id with
`select { id, email, name }`; `none` when the user row is gone. -/
def validateUser (db : Db) (userId : String) : Option PublicUser :=
  (db.users.find? (fun u => u.id == userId)).map publicOf

/-- Modelled from the spec: the JWT strategy's `validate` step
(`jwt.strategy.ts`, present in the repository but not under `src/`):
it resolves the authenticated subject via `validateUser` and, per spec
§4.5, fails with `NotFound` — surfaced as unauthorized, not as an
internal error — when the user record has been deleted. -/
def validateSubject (db : Db) (userId : String) : Except AuthError PublicUser :=
  match validateUser db userId with
  | some u => .ok u
  | none => .error .notFound

/-- Step 1–2 of `refresh`: `jwtService.verify` with the refresh secret
(`Invalid refresh token` on failure), then the `type === 'refresh'`
check (`Invalid token type`). -/
def verifyRefreshJwt (tok : SignedToken) (now : Nat) : Except AuthError RefreshClaims :=
  match verifySigned tok jwtRefreshSecret now with
  | none => .error .invalidRefreshToken
  | some payload =>
    if payload.type == "refresh" then .ok payload else .error .invalidTokenType

/-- The `findMany` filter of `refresh` step 3: rows of `userId` with
`expiresAt: { gte: now }`. -/
def listValid (db : Db) (userId : String) (now : Nat) : List RefreshTokenRow :=
  db.refreshTokens.filter (fun r => r.userId == userId && decide (now ≤ r.expiresAt))

/-- A candidate row joined with its owning user (`include: { user: true }`). -/
structure Matched where
  row : RefreshTokenRow
  user : User
deriving DecidableEq

/-- The `include: { user: true }` join: each candidate row paired with its
user; `none` (a store error) if a row's owner is missing — impossible
under the schema's foreign-key constraint. -/
def joinUsers (db : Db) : List RefreshTokenRow → Option (List Matched)
  | [] => some []
  | r :: rs =>
    match db.users.find? (fun u => u.id == r.userId), joinUsers db rs with
    | some u, some ms => some (⟨r, u⟩ :: ms)
    | _, _ => none

/-- Outcome of the read-only phase of `refresh` (steps 1–4). -/
inductive MatchOutcome where
  | err (e : AuthError)
  | reuse (userId : String)
  | matched (m : Matched)
deriving DecidableEq

/-- Steps 1–4 of `AuthService.refresh`: verify the JWT and its type tag,
list the subject's unexpired rows (with the user join), fail with
`No valid refresh token found` when there are none, then scan for the
first row whose bcrypt digest matches the presented token; no match is
the reuse signal. This phase performs no store write. -/
def refreshMatchPhase (db : Db) (tok : SignedToken) (now : Nat) : MatchOutcome :=
  match verifyRefreshJwt tok now with
  | .error e => .err e
  | .ok payload =>
    match joinUsers db (listValid db payload.sub now) with
    | none => .err .recordNotFound
    | some storedTokens =>
      if storedTokens.isEmpty then .err .noValidSession
      else
        match storedTokens.find? (fun m => tokenMatches tok m.row.token) with
        | none => .reuse payload.sub
        | some m => .matched m

/-- `refreshToken.deleteMany({ where: { userId } })`. -/
def wipeUser (db : Db) (userId : String) : Db :=
  { db with refreshTokens := db.refreshTokens.filter (fun r => r.userId != userId) }

/-- Steps 5–6 of `AuthService.refresh` for a matched row:
`refreshToken.delete({ where: { id } })` — which raises Prisma `P2025`
(uncaught, a 500) when the row is already gone — then `generateTokens`
for the row's user. -/
def rotateCommit (db : Db) (m : Matched) (now salt : Nat) :
    Except AuthError TokenPair × Db :=
  if db.refreshTokens.any (fun r => r.id == m.row.id) then
    let db1 : Db :=
      { db with refreshTokens := db.refreshTokens.filter (fun r => r.id != m.row.id) }
    let res := generateTokens db1 (publicOf m.user) now salt
    (.ok res.1, res.2)
  else
    (.error .recordNotFound, db)

/-- `AuthService.refresh`: the read phase, then either the reuse response
(`deleteMany` for the subject and the reuse-detected throw) or the
rotation commit. -/
def refresh (db : Db) (tok : SignedToken) (now salt : Nat) :
    Except AuthError TokenPair × Db :=
  match refreshMatchPhase db tok now with
  | .err e => (.error e, db)
  | .reuse uid => (.error .reuseDetected, wipeUser db uid)
  | .matched m => rotateCommit db m now salt

/-- `AuthService.logout`: `deleteMany` for the user, constant message. -/
def logout (db : Db) (userId : String) : String × Db :=
  ("Logged out successfully", wipeUser db userId)

/-- The subject's view of the session table: the rows owned by `uid`. -/
def rowsOf (db : Db) (uid : String) : List RefreshTokenRow :=
  db.refreshTokens.filter (fun r => r.userId == uid)

/-! ## Inversion and structural lemmas -/

lemma verifyRefreshJwt_eq_ok {tok : SignedToken} {now : Nat}
    (hkey : tok.key = jwtRefreshSecret) (hexp : now < tok.exp)
    (htype : tok.claims.type = "refresh") :
    verifyRefreshJwt tok now = .ok tok.claims := by
  simp [verifyRefreshJwt, verifySigned, hkey, hexp, htype]

lemma verifyRefreshJwt_ok {tok : SignedToken} {now : Nat} {p : RefreshClaims}
    (h : verifyRefreshJwt tok now = .ok p) :
    p = tok.claims ∧ tok.key = jwtRefreshSecret ∧ now < tok.exp ∧
      tok.claims.type = "refresh" := by
  by_cases hk : tok.key = jwtRefreshSecret
  · by_cases he : now < tok.exp
    · by_cases ht : tok.claims.type = "refresh"
      · rw [verifyRefreshJwt_eq_ok hk he ht] at h
        cases h
        exact ⟨rfl, hk, he, ht⟩
      · have hbad : verifyRefreshJwt tok now = .error .invalidTokenType := by
          simp [verifyRefreshJwt, verifySigned, hk, he, ht]
        rw [hbad] at h
        cases h
    · have hbad : verifyRefreshJwt tok now = .error .invalidRefreshToken := by
        simp [verifyRefreshJwt, verifySigned, he]
      rw [hbad] at h
      cases h
  · have hbad : verifyRefreshJwt tok now = .error .invalidRefreshToken := by
      simp [verifyRefreshJwt, verifySigned, hk]
    rw [hbad] at h
    cases h

lemma mem_listValid {db : Db} {uid : String} {now : Nat} {r : RefreshTokenRow} :
    r ∈ listValid db uid now ↔
      r ∈ db.refreshTokens ∧ r.userId = uid ∧ now ≤ r.expiresAt := by
  simp [listValid, List.mem_filter, and_assoc]

lemma joinUsers_isSome_of_fk (db : Db) (rows : List RefreshTokenRow)
    (h : ∀ r ∈ rows, (db.users.find? (fun u => u.id == r.userId)).isSome) :
    (joinUsers db rows).isSome := by
  induction rows with
  | nil => simp [joinUsers]
  | cons r rs ih =>
    obtain ⟨u, hu⟩ := Option.isSome_iff_exists.mp (h r (by simp))
    obtain ⟨l, hl⟩ :=
      Option.isSome_iff_exists.mp (ih (fun x hx => h x (by simp [hx])))
    simp [joinUsers, hu, hl]

lemma joinUsers_mem {db : Db} {rows : List RefreshTokenRow}
    {l : List Matched} (h : joinUsers db rows = some l) :
    ∀ m ∈ l, m.row ∈ rows ∧
      db.users.find? (fun u => u.id == m.row.userId) = some m.user := by
  induction rows generalizing l with
  | nil =>
    simp only [joinUsers] at h
    cases h
    intro m hm
    cases hm
  | cons r rs ih =>
    simp only [joinUsers] at h
    cases hu : db.users.find? (fun u => u.id == r.userId) with
    | none => rw [hu] at h; cases h
    | some u =>
      rw [hu] at h
      cases hrec : joinUsers db rs with
      | none => rw [hrec] at h; cases h
      | some ms =>
        rw [hrec] at h
        cases h
        intro m hm
        rcases List.mem_cons.mp hm with hm | hm
        · subst hm
          exact ⟨by simp, hu⟩
        · obtain ⟨h1, h2⟩ := ih hrec m hm
          exact ⟨by simp [h1], h2⟩

lemma joinUsers_ne_nil {db : Db} {rows : List RefreshTokenRow}
    {l : List Matched} (h : joinUsers db rows = some l) (hne : rows ≠ []) :
    l ≠ [] := by
  cases rows with
  | nil => exact absurd rfl hne
  | cons r rs =>
    simp only [joinUsers] at h
    cases hu : db.users.find? (fun u => u.id == r.userId) with
    | none => rw [hu] at h; cases h
    | some u =>
      rw [hu] at h
      cases hrec : joinUsers db rs with
      | none => rw [hrec] at h; cases h
      | some ms => rw [hrec] at h; cases h; simp

lemma verifyRefreshJwt_error_cases {tok : SignedToken} {now : Nat} {e : AuthError}
    (h : verifyRefreshJwt tok now = .error e) :
    e = .invalidRefreshToken ∨ e = .invalidTokenType := by
  by_cases hk : tok.key = jwtRefreshSecret
  · by_cases he : now < tok.exp
    · by_cases ht : tok.claims.type = "refresh"
      · rw [verifyRefreshJwt_eq_ok hk he ht] at h
        cases h
      · have hbad : verifyRefreshJwt tok now = .error .invalidTokenType := by
          simp [verifyRefreshJwt, verifySigned, hk, he, ht]
        rw [hbad] at h
        cases h
        exact Or.inr rfl
    · have hbad : verifyRefreshJwt tok now = .error .invalidRefreshToken := by
        simp [verifyRefreshJwt, verifySigned, he]
      rw [hbad] at h
      cases h
      exact Or.inl rfl
  · have hbad : verifyRefreshJwt tok now = .error .invalidRefreshToken := by
      simp [verifyRefreshJwt, verifySigned, hk]
    rw [hbad] at h
    cases h
    exact Or.inl rfl

lemma matchPhase_reuse {db : Db} {tok : SignedToken} {now : Nat} {uid : String}
    (h : refreshMatchPhase db tok now = .reuse uid) :
    uid = tok.claims.sub := by
  unfold refreshMatchPhase at h
  split at h
  next => cases h
  next payload hv =>
    split at h
    next => cases h
    next l hj =>
      split at h
      next => cases h
      next =>
        split at h
        next =>
          cases h
          rw [(verifyRefreshJwt_ok hv).1]
        next => cases h

lemma matchPhase_matched {db : Db} {tok : SignedToken} {now : Nat} {m : Matched}
    (h : refreshMatchPhase db tok now = .matched m) :
    m.row ∈ db.refreshTokens ∧ m.row.userId = tok.claims.sub ∧
      now ≤ m.row.expiresAt ∧
      db.users.find? (fun u => u.id == m.row.userId) = some m.user := by
  unfold refreshMatchPhase at h
  split at h
  next => cases h
  next payload hv =>
    split at h
    next => cases h
    next l hj =>
      split at h
      next => cases h
      next =>
        split at h
        next => cases h
        next m2 hf =>
          cases h
          have hp := (verifyRefreshJwt_ok hv).1
          subst hp
          obtain ⟨hrow, hu⟩ := joinUsers_mem hj m (List.mem_of_find?_eq_some hf)
          obtain ⟨h1, h2, h3⟩ := mem_listValid.mp hrow
          exact ⟨h1, h2, h3, hu⟩

lemma matchPhase_err_cases {db : Db} {tok : SignedToken} {now : Nat} {e : AuthError}
    (h : refreshMatchPhase db tok now = .err e)
    (hfk : ∀ r ∈ db.refreshTokens, (db.users.find? (fun u => u.id == r.userId)).isSome) :
    e = .invalidRefreshToken ∨ e = .invalidTokenType ∨ e = .noValidSession := by
  unfold refreshMatchPhase at h
  split at h
  next e2 hv =>
    cases h
    rcases verifyRefreshJwt_error_cases hv with h1 | h1
    · exact Or.inl h1
    · exact Or.inr (Or.inl h1)
  next payload hv =>
    split at h
    next hj =>
      have hs : (joinUsers db (listValid db payload.sub now)).isSome :=
        joinUsers_isSome_of_fk db _ (fun r hr => hfk r (mem_listValid.mp hr).1)
      simp [hj] at hs
    next l hj =>
      split at h
      next =>
        cases h
        exact Or.inr (Or.inr rfl)
      next =>
        split at h
        next => cases h
        next => cases h

/-- The success path of `refresh`, in closed form: with exactly one stored
row for the subject, that row unexpired and matching the presented token,
and the subject present in the user table, `refresh` rotates — it deletes
the matched row, inserts one freshly minted row for the same owner, and
returns the new pair. -/
lemma rotate_success
    {db : Db} {uid : String} {row : RefreshTokenRow} {u : User}
    {tok : SignedToken} {now salt : Nat}
    (hkey : tok.key = jwtRefreshSecret) (hexp : now < tok.exp)
    (htype : tok.claims.type = "refresh") (hsub : tok.claims.sub = uid)
    (hrows : rowsOf db uid = [row])
    (hunexp : now ≤ row.expiresAt)
    (hmatch : tok = row.token.pre)
    (hu : db.users.find? (fun x => x.id == uid) = some u) :
    refresh db tok now salt =
      (.ok ⟨accessTokenFor (publicOf u) now, refreshTokenFor u.id now, publicOf u⟩,
       { users := db.users,
         refreshTokens :=
           db.refreshTokens.filter (fun r => r.id != row.id) ++
             [⟨db.nextRowId, ⟨refreshTokenFor u.id now, salt⟩, u.id,
               now + refreshTtlMs⟩],
         nextUserNum := db.nextUserNum,
         nextRowId := db.nextRowId + 1 }) := by
  have hrmem : row ∈ rowsOf db uid := by rw [hrows]; simp
  have hruid : row.userId = uid := by
    have := (List.mem_filter.mp hrmem).2
    simpa using this
  have hmemdb : row ∈ db.refreshTokens := (List.mem_filter.mp hrmem).1
  have hlv : listValid db uid now = [row] := by
    have h1 : listValid db uid now =
        (rowsOf db uid).filter (fun r => decide (now ≤ r.expiresAt)) := by
      rw [listValid, rowsOf, List.filter_filter]
      exact List.filter_congr (fun x _ => Bool.and_comm _ _)
    rw [h1, hrows]
    simp [hunexp]
  have hjoin : joinUsers db [row] = some [⟨row, u⟩] := by
    simp [joinUsers, hruid, hu]
  have hphase : refreshMatchPhase db tok now = .matched ⟨row, u⟩ := by
    simp only [refreshMatchPhase, verifyRefreshJwt_eq_ok hkey hexp htype, hsub,
      hlv, hjoin]
    simp [tokenMatches, hmatch]
  have huid : u.id = uid := by
    have := List.find?_some hu
    simpa using this
  unfold refresh
  rw [hphase]
  unfold rotateCommit
  have hany : db.refreshTokens.any (fun r => r.id == row.id) = true :=
    List.any_eq_true.mpr ⟨row, hmemdb, by simp⟩
  simp only [hany, if_true]
  simp [generateTokens, publicOf]

lemma verifySigned_some {t : SignedToken} {s : String} {now : Nat}
    {p : RefreshClaims} (h : verifySigned t s now = some p) : p = t.claims := by
  unfold verifySigned at h
  split at h
  · cases h; rfl
  · cases h

lemma filter_swap {α : Type} (p q : α → Bool) (l : List α) :
    List.filter p (List.filter q l) = List.filter q (List.filter p l) := by
  rw [List.filter_filter, List.filter_filter]
  exact List.filter_congr fun x _ => Bool.and_comm _ _

lemma filter_owner_delete_insert {l : List RefreshTokenRow} {uid : String}
    {row : RefreshTokenRow} (nr : RefreshTokenRow)
    (hrows : l.filter (fun r => r.userId == uid) = [row]) (hnr : nr.userId = uid) :
    (l.filter (fun r => r.id != row.id) ++ [nr]).filter
      (fun r => r.userId == uid) = [nr] := by
  rw [List.filter_append]
  have hsw : (l.filter (fun r => r.id != row.id)).filter (fun r => r.userId == uid)
      = (l.filter (fun r => r.userId == uid)).filter (fun r => r.id != row.id) :=
    filter_swap _ _ l
  rw [hsw, hrows]
  simp [hnr]

lemma rowsOf_wipeUser_ne {db : Db} {uid v : String} (h : v ≠ uid) :
    rowsOf (wipeUser db uid) v = rowsOf db v := by
  simp only [rowsOf, wipeUser]
  rw [List.filter_filter]
  refine List.filter_congr fun r _ => ?_
  by_cases hv : r.userId = v
  · simp [hv, bne, h]
  · simp [hv]

lemma rowsOf_generateTokens_ne {db : Db} {u : PublicUser} {now salt : Nat}
    {v : String} (h : u.id ≠ v) :
    rowsOf (generateTokens db u now salt).2 v = rowsOf db v := by
  simp only [rowsOf, generateTokens, List.filter_append]
  simp [List.filter_cons, h]

/-! ## Concrete scenario: register Alice, then rotate and replay -/

/-- State after registering `alice@example.com` at clock 1000. -/
def exDb : Db := (register emptyDb "alice@example.com" "password123" "Alice" 1000 11 7).2

/-- The refresh token the registration handed to the client. -/
def exT : SignedToken := refreshTokenFor "u0" 1000

/-- First `refresh` with the fresh token (clock 2000). -/
def exS1 : Except AuthError TokenPair × Db := refresh exDb exT 2000 12

/-- Replay of the consumed token (clock 3000). -/
def exS2 : Except AuthError TokenPair × Db := refresh exS1.2 exT 3000 13

/-- A further replay of the same token after the wipe (clock 4000). -/
def exS3 : Except AuthError TokenPair × Db := refresh exS2.2 exT 4000 14

/-- The single session row created by the registration. -/
def exRow : RefreshTokenRow := ⟨0, ⟨exT, 11⟩, "u0", 1000 + refreshTtlMs⟩

def exAlice : User := ⟨"u0", "alice@example.com", ⟨"password123", 7⟩, "Alice"⟩

def exMatched : Matched := ⟨exRow, exAlice⟩

/-- One of two concurrent rotations committing first on `exDb`. -/
def exCommitA : Except AuthError TokenPair × Db := rotateCommit exDb exMatched 2000 12

/-- A user table holding one account, for the login experiments. -/
def exLoginDb : Db := ⟨[⟨"u9", "real@x.com", ⟨"correct", 3⟩, "Bob"⟩], [], 10, 10⟩

/-- A token signed with the access key instead of the refresh key. -/
def exBadKeyT : SignedToken := ⟨⟨"u0", "refresh", 1000⟩, jwtSecret, 1000, 1000 + refreshTtlMs⟩

end AuthCore

deriving instance DecidableEq for Except

namespace AuthCore

/-! ## The claims -/

/-- C5: if the presented token fails JWT verification (bad signature /
wrong key / expired) or carries a `type` claim other than `"refresh"`,
`refresh` fails with the invalid-token `UnauthorizedException` and the
store state is returned completely unchanged — no session row of any user
is read, created or deleted before the throw. -/
theorem refresh_invalid_token_no_store_write
    (db : Db) (tok : SignedToken) (now salt : Nat)
    (hbad : verifySigned tok jwtRefreshSecret now = none ∨
      tok.claims.type ≠ "refresh") :
    (refresh db tok now salt).2 = db ∧
      ((refresh db tok now salt).1 = .error .invalidRefreshToken ∨
        (refresh db tok now salt).1 = .error .invalidTokenType) := by
  have hv : ∃ e, verifyRefreshJwt tok now = .error e := by
    rcases hbad with hnone | htype
    · exact ⟨.invalidRefreshToken, by simp [verifyRefreshJwt, hnone]⟩
    · cases hs : verifySigned tok jwtRefreshSecret now with
      | none => exact ⟨.invalidRefreshToken, by simp [verifyRefreshJwt, hs]⟩
      | some p =>
        have hp := verifySigned_some hs
        exact ⟨.invalidTokenType, by simp [verifyRefreshJwt, hs, hp, htype]⟩
  obtain ⟨e, he⟩ := hv
  have hphase : refreshMatchPhase db tok now = .err e := by
    simp only [refreshMatchPhase, he]
  have hres : refresh db tok now salt = (.error e, db) := by
    simp only [refresh, hphase]
  rcases verifyRefreshJwt_error_cases he with h1 | h1 <;> subst h1 <;>
    simp [hres]

/-- Witness for C5 at a token signed with the access key. -/
theorem refresh_invalid_token_no_store_write_witness :
    (refresh exDb exBadKeyT 2000 9).2 = exDb ∧
      ((refresh exDb exBadKeyT 2000 9).1 = .error .invalidRefreshToken ∨
        (refresh exDb exBadKeyT 2000 9).1 = .error .invalidTokenType) :=
  refresh_invalid_token_no_store_write exDb exBadKeyT 2000 9
    (Or.inl (by decide))

/-- C4: `listValid` never returns a row whose `expiresAt` is strictly in
the past (the `gte: now` filter), and when the subject has no unexpired
rows at all, `refresh` fails with `No valid refresh token found` and
returns the store unchanged — nothing is deleted. -/
theorem refresh_expiry_enforced :
    (∀ (db : Db) (uid : String) (now : Nat) (r : RefreshTokenRow),
        r ∈ listValid db uid now → ¬ r.expiresAt < now) ∧
    (∀ (db : Db) (tok : SignedToken) (now salt : Nat) (payload : RefreshClaims),
        verifyRefreshJwt tok now = .ok payload →
        listValid db payload.sub now = [] →
        refresh db tok now salt = (.error .noValidSession, db)) := by
  constructor
  · intro db uid now r hr
    have h := (mem_listValid.mp hr).2.2
    omega
  · intro db tok now salt payload hok hempty
    have hphase : refreshMatchPhase db tok now = .err .noValidSession := by
      simp only [refreshMatchPhase, hok, hempty]
      simp [joinUsers]
    simp only [refresh, hphase]

/-- Witness for C4: the fresh row is unexpired at clock 2000, and the
replay after the reuse wipe (state `exS2.2`, zero rows) fails with
`NoValidSession` leaving the store untouched. -/
theorem refresh_expiry_enforced_witness :
    (¬ exRow.expiresAt < 2000) ∧
      refresh exS2.2 exT 4000 14 = (.error .noValidSession, exS2.2) :=
  ⟨refresh_expiry_enforced.1 exDb "u0" 2000 exRow (by decide),
   refresh_expiry_enforced.2 exS2.2 exT 4000 14 exT.claims (by decide)
     (by decide)⟩

/-- C8: `validateSubject` resolves an existing user to exactly the
minimal public profile `{ id, email, name }`, and when the user record is
gone it fails with the spec's `NotFound` — surfaced as a 401, never as a
success and never as an internal 500. -/
theorem validate_subject_profile_or_not_found (db : Db) (uid : String) :
    (∀ u : User, db.users.find? (fun x => x.id == uid) = some u →
        validateSubject db uid = .ok ⟨u.id, u.email, u.name⟩) ∧
    (db.users.find? (fun x => x.id == uid) = none →
        validateSubject db uid = .error .notFound) ∧
    (surface .notFound).statusCode = 401 := by
  refine ⟨?_, ?_, rfl⟩
  · intro u hu
    simp [validateSubject, validateUser, hu, publicOf]
  · intro hn
    simp [validateSubject, validateUser, hn]

/-- Witness for C8 on the one-user table: the present subject yields its
profile, the absent subject yields `NotFound`. -/
theorem validate_subject_profile_or_not_found_witness :
    validateSubject exLoginDb "u9" = .ok ⟨"u9", "real@x.com", "Bob"⟩ ∧
      validateSubject exLoginDb "deleted-user" = .error .notFound :=
  ⟨(validate_subject_profile_or_not_found exLoginDb "u9").1
      ⟨"u9", "real@x.com", ⟨"correct", 3⟩, "Bob"⟩ (by decide),
   (validate_subject_profile_or_not_found exLoginDb "deleted-user").2.1
      (by decide)⟩

/-- C9 counterexample: the per-issuance marker is `Date.now()`, so two
distinct issuance calls that read the same clock millisecond — here with
different store states and different bcrypt salts — mint bit-identical
refresh tokens, contradicting the claim that any two issuances differ. -/
theorem same_millisecond_tokens_identical :
    (generateTokens emptyDb ⟨"u0", "alice@example.com", "Alice"⟩ 1000 1).1.refreshToken =
      (generateTokens exDb ⟨"u0", "alice@example.com", "Alice"⟩ 1000 99).1.refreshToken ∧
    emptyDb ≠ exDb ∧ (1 : Nat) ≠ 99 :=
  ⟨rfl, by decide, by decide⟩

/-- C9 amended: the uniqueness marker is the millisecond clock reading
(`tokenVersion := Date.now()`), so two issuances with distinct clock
readings always yield distinct refresh tokens — but issuances within one
millisecond coincide. -/
theorem distinct_clock_tokens_distinct
    (u : PublicUser) (db1 db2 : Db) (now1 now2 salt1 salt2 : Nat)
    (h : now1 ≠ now2) :
    (generateTokens db1 u now1 salt1).1.refreshToken ≠
      (generateTokens db2 u now2 salt2).1.refreshToken := by
  intro hEq
  have hver := congrArg (fun t : SignedToken => t.claims.tokenVersion) hEq
  simp only [generateTokens, refreshTokenFor] at hver
  exact h hver

/-- Witness for C9's amended theorem at clock readings 3 and 5. -/
theorem distinct_clock_tokens_distinct_witness :
    (generateTokens emptyDb ⟨"u0", "a@x.com", "A"⟩ 3 0).1.refreshToken ≠
      (generateTokens emptyDb ⟨"u0", "a@x.com", "A"⟩ 5 0).1.refreshToken :=
  distinct_clock_tokens_distinct ⟨"u0", "a@x.com", "A"⟩ emptyDb emptyDb 3 5 0 0
    (by decide)

/-- C1 counterexample: in the concrete register→rotate→replay trace, the
first replay of the consumed token fails with the reuse-detected error,
but the next call presenting the same consumed token fails with
`NoValidSession` — so it is not the case that *every* later call with the
consumed token fails with `ReuseDetected`. -/
theorem refresh_third_replay_not_reuse_detected :
    exS1.1.isOk = true ∧
    exS2.1 = .error .reuseDetected ∧
    exS3.1 = .error .noValidSession ∧
    AuthError.noValidSession ≠ AuthError.reuseDetected :=
  ⟨rfl, rfl, rfl, by decide⟩

/-- C1 amended: the first call to `refresh` with a freshly issued token
succeeds; a replay while the subject still has unexpired rows but none
matching the presented token fails with `ReuseDetected` and deletes every
row owned by the subject (zero sessions remain); once the subject has no
unexpired rows, further replays fail with `NoValidSession` instead. -/
theorem refresh_replay_detection :
    (∀ (db : Db) (tok : SignedToken) (now salt : Nat) (payload : RefreshClaims)
        (l : List Matched),
        verifyRefreshJwt tok now = .ok payload →
        joinUsers db (listValid db payload.sub now) = some l →
        listValid db payload.sub now ≠ [] →
        (∀ r ∈ listValid db payload.sub now, tokenMatches tok r.token = false) →
        refresh db tok now salt = (.error .reuseDetected, wipeUser db payload.sub) ∧
          rowsOf (wipeUser db payload.sub) payload.sub = []) ∧
    (∀ (db : Db) (tok : SignedToken) (now salt : Nat) (payload : RefreshClaims),
        verifyRefreshJwt tok now = .ok payload →
        listValid db payload.sub now = [] →
        refresh db tok now salt = (.error .noValidSession, db)) ∧
    (∀ (db : Db) (uid : String) (row : RefreshTokenRow) (u : User)
        (tok : SignedToken) (now salt : Nat),
        tok.key = jwtRefreshSecret → now < tok.exp →
        tok.claims.type = "refresh" → tok.claims.sub = uid →
        rowsOf db uid = [row] → now ≤ row.expiresAt →
        tok = row.token.pre →
        db.users.find? (fun x => x.id == uid) = some u →
        (refresh db tok now salt).1.isOk = true) := by
  refine ⟨?_, ?_, ?_⟩
  · intro db tok now salt payload l hok hjoin hne hno
    have hlne : l ≠ [] := joinUsers_ne_nil hjoin hne
    have hfind : l.find? (fun m => tokenMatches tok m.row.token) = none := by
      rw [List.find?_eq_none]
      intro m hm
      have hmem := (joinUsers_mem hjoin m hm).1
      simp [hno _ hmem]
    have hphase : refreshMatchPhase db tok now = .reuse payload.sub := by
      simp only [refreshMatchPhase, hok, hjoin]
      simp [List.isEmpty_iff, hlne, hfind]
    constructor
    · simp only [refresh, hphase]
    · simp only [rowsOf, wipeUser, List.filter_filter]
      rw [List.filter_eq_nil_iff]
      intro r _
      by_cases h : r.userId = payload.sub <;> simp [h]
  · intro db tok now salt payload hok hempty
    have hphase : refreshMatchPhase db tok now = .err .noValidSession := by
      simp only [refreshMatchPhase, hok, hempty]
      simp [joinUsers]
    simp only [refresh, hphase]
  · intro db uid row u tok now salt hkey hexp htype hsub hrows hunexp hmatch hu
    rw [rotate_success hkey hexp htype hsub hrows hunexp hmatch hu]
    rfl

/-- Witness for C1's amended theorem along the concrete trace. -/
theorem refresh_replay_detection_witness :
    (refresh exS1.2 exT 3000 13 = (.error .reuseDetected, wipeUser exS1.2 "u0") ∧
      rowsOf (wipeUser exS1.2 "u0") "u0" = []) ∧
    refresh exS2.2 exT 4000 14 = (.error .noValidSession, exS2.2) ∧
    (refresh exDb exT 2000 12).1.isOk = true :=
  ⟨refresh_replay_detection.1 exS1.2 exT 3000 13 exT.claims
      [⟨⟨1, ⟨refreshTokenFor "u0" 2000, 12⟩, "u0", 2000 + refreshTtlMs⟩, exAlice⟩]
      (by decide) (by decide) (by decide) (by decide),
   refresh_replay_detection.2.1 exS2.2 exT 4000 14 exT.claims (by decide)
      (by decide),
   refresh_replay_detection.2.2 exDb "u0" exRow exAlice exT 2000 12
      (by decide) (by decide) (by decide) (by decide) (by decide) (by decide)
      (by decide) (by decide)⟩

/-- C3: with exactly one stored row for the subject, matching the
presented fresh token, a successful `refresh` deletes that row and
inserts exactly one new row owned by the same subject whose digest is of
the returned refresh token — and rotating the newest token again succeeds
with the same single-row shape, so the chain T → T2 → T3 maintains
exactly one `RefreshSession` row per step. -/
theorem refresh_rotation_chain
    (db : Db) (uid : String) (row : RefreshTokenRow) (u : User)
    (tok : SignedToken) (now salt : Nat)
    (hkey : tok.key = jwtRefreshSecret) (hexp : now < tok.exp)
    (htype : tok.claims.type = "refresh") (hsub : tok.claims.sub = uid)
    (hrows : rowsOf db uid = [row]) (hunexp : now ≤ row.expiresAt)
    (hmatch : tok = row.token.pre)
    (hu : db.users.find? (fun x => x.id == uid) = some u) :
    ∃ pair db2, refresh db tok now salt = (.ok pair, db2) ∧
      rowsOf db2 uid =
        [⟨db.nextRowId, ⟨pair.refreshToken, salt⟩, uid, now + refreshTtlMs⟩] ∧
      (∀ now2 salt2, now ≤ now2 → now2 < now + refreshTtlMs →
        ∃ pair2 db3, refresh db2 pair.refreshToken now2 salt2 = (.ok pair2, db3) ∧
          rowsOf db3 uid =
            [⟨db2.nextRowId, ⟨pair2.refreshToken, salt2⟩, uid,
              now2 + refreshTtlMs⟩]) := by
  have huid : u.id = uid := by simpa using List.find?_some hu
  subst huid
  have hrows2 : rowsOf
      { users := db.users,
        refreshTokens := db.refreshTokens.filter (fun r => r.id != row.id) ++
          [⟨db.nextRowId, ⟨refreshTokenFor u.id now, salt⟩, u.id,
            now + refreshTtlMs⟩],
        nextUserNum := db.nextUserNum,
        nextRowId := db.nextRowId + 1 } u.id =
      [⟨db.nextRowId, ⟨refreshTokenFor u.id now, salt⟩, u.id,
        now + refreshTtlMs⟩] :=
    filter_owner_delete_insert _ hrows rfl
  refine ⟨_, _, rotate_success hkey hexp htype hsub hrows hunexp hmatch hu,
    hrows2, ?_⟩
  intro now2 salt2 hle hlt
  refine ⟨_, _, rotate_success rfl hlt rfl rfl hrows2 (le_of_lt hlt) rfl hu, ?_⟩
  exact filter_owner_delete_insert _ hrows2 rfl

/-- Witness for C3 at the freshly registered state. -/
theorem refresh_rotation_chain_witness :
    ∃ pair db2, refresh exDb exT 2000 12 = (.ok pair, db2) ∧
      rowsOf db2 "u0" =
        [⟨exDb.nextRowId, ⟨pair.refreshToken, 12⟩, "u0", 2000 + refreshTtlMs⟩] ∧
      (∀ now2 salt2, 2000 ≤ now2 → now2 < 2000 + refreshTtlMs →
        ∃ pair2 db3, refresh db2 pair.refreshToken now2 salt2 = (.ok pair2, db3) ∧
          rowsOf db3 "u0" =
            [⟨db2.nextRowId, ⟨pair2.refreshToken, salt2⟩, "u0",
              now2 + refreshTtlMs⟩]) :=
  refresh_rotation_chain exDb "u0" exRow exAlice exT 2000 12
    (by decide) (by decide) (by decide) (by decide) (by decide) (by decide)
    (by decide) (by decide)

/-- C6 counterexample: login with an unknown email performs zero bcrypt
comparisons (the source returns early, with no dummy-hash verification),
while login with a known email and wrong password performs one — the two
failure paths do not have identical work profiles. -/
theorem login_missing_user_skips_hash :
    (login exLoginDb "nonexistent@x.com" "any" 1 2).1 =
      (login exLoginDb "real@x.com" "wrongpassword" 1 2).1 ∧
    (loginWithTrace exLoginDb "nonexistent@x.com" "any" 1 2).2 = 0 ∧
    (loginWithTrace exLoginDb "real@x.com" "wrongpassword" 1 2).2 = 1 ∧
    (0 : Nat) ≠ 1 :=
  ⟨rfl, rfl, rfl, by decide⟩

/-- C6 amended: unknown-email and wrong-password logins fail with the
byte-identical `Invalid credentials` error and leave the store unchanged,
but the unknown-email path performs no password verification at all
(zero bcrypt comparisons against any dummy hash) while the wrong-password
path performs one, so the two work profiles differ. -/
theorem login_uniform_error_distinct_work
    (db : Db) (e1 p1 e2 p2 : String) (now1 salt1 now2 salt2 : Nat) (u : User)
    (h1 : db.users.find? (fun x => x.email == e1) = none)
    (h2 : db.users.find? (fun x => x.email == e2) = some u)
    (h3 : pwMatches p2 u.password = false) :
    login db e1 p1 now1 salt1 = (.error .invalidCredentials, db) ∧
    login db e2 p2 now2 salt2 = (.error .invalidCredentials, db) ∧
    (loginWithTrace db e1 p1 now1 salt1).2 = 0 ∧
    (loginWithTrace db e2 p2 now2 salt2).2 = 1 := by
  refine ⟨?_, ?_, ?_, ?_⟩ <;> simp [login, loginWithTrace, h1, h2, h3]

/-- Witness for C6's amended theorem on the one-user table. -/
theorem login_uniform_error_distinct_work_witness :
    login exLoginDb "nonexistent@x.com" "any" 1 2 =
      (.error .invalidCredentials, exLoginDb) ∧
    login exLoginDb "real@x.com" "wrongpassword" 1 2 =
      (.error .invalidCredentials, exLoginDb) ∧
    (loginWithTrace exLoginDb "nonexistent@x.com" "any" 1 2).2 = 0 ∧
    (loginWithTrace exLoginDb "real@x.com" "wrongpassword" 1 2).2 = 1 :=
  login_uniform_error_distinct_work exLoginDb "nonexistent@x.com" "any"
    "real@x.com" "wrongpassword" 1 2 1 2
    ⟨"u9", "real@x.com", ⟨"correct", 3⟩, "Bob"⟩
    (by decide) (by decide) (by decide)

lemma any_id_delete_insert {l : List RefreshTokenRow} {rid : Nat}
    (nr : RefreshTokenRow) (hnr : nr.id ≠ rid) :
    ((l.filter (fun r => r.id != rid) ++ [nr]).any
      (fun r => r.id == rid)) = false := by
  rw [List.any_append]
  have h1 : (l.filter (fun r => r.id != rid)).any (fun r => r.id == rid) = false := by
    rw [List.any_eq_false]
    intro x hx
    have hb := (List.mem_filter.mp hx).2
    simp only [bne_iff_ne, ne_eq] at hb
    simp [hb]
  have h2 : ([nr].any (fun r => r.id == rid)) = false := by simp [hnr]
  rw [h1, h2]
  rfl

/-- C7 counterexample: two calls can both pass the read-only match phase
on the same state and select the same row; after the first commits, the
second's `delete({ where: { id } })` raises the uncaught Prisma
record-not-found error — a 500 — rather than counting affected rows and
failing with `ReuseDetected` as the claim describes. -/
theorem rotate_commit_race_store_error :
    refreshMatchPhase exDb exT 2000 = .matched exMatched ∧
    exCommitA.1.isOk = true ∧
    rotateCommit exCommitA.2 exMatched 2500 13 =
      (.error .recordNotFound, exCommitA.2) ∧
    AuthError.recordNotFound ≠ AuthError.reuseDetected ∧
    (surface .recordNotFound).statusCode = 500 :=
  ⟨rfl, rfl, rfl, by decide, rfl⟩

/-- C7 amended: the rotation commit deletes the matched row by primary
key with no affected-row count; once one commit has consumed the row, a
second commit of the same matched row fails — with the uncaught
record-not-found store error, not `ReuseDetected` — and inserts nothing,
so two rotations of one token can never both succeed. -/
theorem rotate_commit_no_double_success
    (db : Db) (m : Matched) (now salt now2 salt2 : Nat)
    (pair : TokenPair) (db2 : Db)
    (hfresh : ∀ r ∈ db.refreshTokens, r.id < db.nextRowId)
    (hcommit : rotateCommit db m now salt = (.ok pair, db2)) :
    rotateCommit db2 m now2 salt2 = (.error .recordNotFound, db2) ∧
      AuthError.recordNotFound ≠ AuthError.reuseDetected := by
  refine ⟨?_, by decide⟩
  unfold rotateCommit at hcommit
  split at hcommit
  · next hany =>
    have hlt : m.row.id < db.nextRowId := by
      obtain ⟨r, hrmem, hrid⟩ := List.any_eq_true.mp hany
      have h1 := hfresh r hrmem
      have h2 : r.id = m.row.id := by simpa using hrid
      omega
    have hdb := congrArg Prod.snd hcommit
    simp only at hdb
    subst hdb
    have hcond : ((generateTokens
        { db with refreshTokens :=
            db.refreshTokens.filter (fun r => r.id != m.row.id) }
        (publicOf m.user) now salt).2.refreshTokens.any
          (fun r => r.id == m.row.id)) = false := by
      simp only [generateTokens]
      exact any_id_delete_insert _ (Nat.ne_of_gt hlt)
    simp [rotateCommit, hcond]
  · next hany =>
    injection hcommit with h1 h2
    injection h1

/-- Witness for C7's amended theorem on the concrete race. -/
theorem rotate_commit_no_double_success_witness :
    rotateCommit exCommitA.2 exMatched 2500 13 =
      (.error .recordNotFound, exCommitA.2) ∧
      AuthError.recordNotFound ≠ AuthError.reuseDetected :=
  rotate_commit_no_double_success exDb exMatched 2000 12 2500 13
    ⟨accessTokenFor (publicOf exAlice) 2000, refreshTokenFor "u0" 2000,
      publicOf exAlice⟩
    exCommitA.2 (by decide) (by decide)

/-- C2 counterexample: a wrong-key token and a replayed token both fail
with status 401, but the two surfaced errors differ — the NestJS
exception message names the failed check, so a reuse-detection failure is
distinguishable from a generic invalid-refresh-token failure. -/
theorem refresh_error_surface_distinguishes :
    (refresh exDb exBadKeyT 2000 9).1 = .error .invalidRefreshToken ∧
    exS2.1 = .error .reuseDetected ∧
    surface .invalidRefreshToken ≠ surface .reuseDetected ∧
    (surface .invalidRefreshToken).statusCode =
      (surface .reuseDetected).statusCode :=
  ⟨rfl, rfl, by decide, rfl⟩

/-- C2 amended: under referential integrity of the session table, every
failure of `refresh` surfaces as the same exception class — status 401,
error name `Unauthorized` — but the four failure modes carry distinct
message strings; in particular the reuse-detected message differs from
every other refresh failure message. -/
theorem refresh_errors_same_class_distinct_messages
    (db : Db) (tok : SignedToken) (now salt : Nat) (e : AuthError) (db2 : Db)
    (hfk : ∀ r ∈ db.refreshTokens,
      (db.users.find? (fun u => u.id == r.userId)).isSome)
    (h : refresh db tok now salt = (.error e, db2)) :
    (surface e).statusCode = 401 ∧ (surface e).error = "Unauthorized" ∧
    (surface AuthError.reuseDetected).message ≠
      (surface AuthError.invalidRefreshToken).message ∧
    (surface AuthError.reuseDetected).message ≠
      (surface AuthError.invalidTokenType).message ∧
    (surface AuthError.reuseDetected).message ≠
      (surface AuthError.noValidSession).message := by
  have he : e = .invalidRefreshToken ∨ e = .invalidTokenType ∨
      e = .noValidSession ∨ e = .reuseDetected := by
    unfold refresh at h
    split at h
    · next e2 hphase =>
      injection h with h1 h2
      injection h1 with h3
      subst h3
      rcases matchPhase_err_cases hphase hfk with hc | hc | hc <;> simp [hc]
    · next uid hphase =>
      injection h with h1 h2
      injection h1 with h3
      subst h3
      simp
    · next m hphase =>
      obtain ⟨hmem, -, -, -⟩ := matchPhase_matched hphase
      unfold rotateCommit at h
      split at h
      · next =>
        injection h with h1 h2
        injection h1
      · next hq =>
        have hany : db.refreshTokens.any (fun r => r.id == m.row.id) = true :=
          List.any_eq_true.mpr ⟨m.row, hmem, by simp⟩
        exact absurd hany hq
  rcases he with hc | hc | hc | hc <;> subst hc <;>
    exact ⟨rfl, rfl, by decide, by decide, by decide⟩

/-- Witness for C2's amended theorem at the wrong-key token. -/
theorem refresh_errors_same_class_distinct_messages_witness :
    (surface AuthError.invalidRefreshToken).statusCode = 401 ∧
    (surface AuthError.invalidRefreshToken).error = "Unauthorized" ∧
    (surface AuthError.reuseDetected).message ≠
      (surface AuthError.invalidRefreshToken).message ∧
    (surface AuthError.reuseDetected).message ≠
      (surface AuthError.invalidTokenType).message ∧
    (surface AuthError.reuseDetected).message ≠
      (surface AuthError.noValidSession).message :=
  refresh_errors_same_class_distinct_messages exDb exBadKeyT 2000 9
    .invalidRefreshToken exDb (by decide) (by decide)

/-- C10: no auth operation invoked for one subject creates, modifies or
deletes a session row owned by a different user: logout and the reuse
wipe are scoped to the subject's `userId`, rotation deletes only the
matched row's primary key and inserts a row carrying the subject's id,
and registration/login insert only for their own subject. -/
theorem auth_ops_cross_user_frame :
    (∀ (db : Db) (uid v : String), v ≠ uid →
        rowsOf (logout db uid).2 v = rowsOf db v) ∧
    (∀ (db : Db) (email pw nm : String) (now salt pwSalt : Nat) (v : String),
        v ≠ freshUserId db →
        rowsOf (register db email pw nm now salt pwSalt).2 v = rowsOf db v) ∧
    (∀ (db : Db) (email pw : String) (now salt : Nat) (v : String),
        (∀ u : User, db.users.find? (fun x => x.email == email) = some u →
          u.id ≠ v) →
        rowsOf (login db email pw now salt).2 v = rowsOf db v) ∧
    (∀ (db : Db) (tok : SignedToken) (now salt : Nat) (v : String),
        v ≠ tok.claims.sub →
        (db.refreshTokens.map (fun r => r.id)).Nodup →
        rowsOf (refresh db tok now salt).2 v = rowsOf db v) := by
  refine ⟨?_, ?_, ?_, ?_⟩
  · intro db uid v h
    exact rowsOf_wipeUser_ne h
  · intro db email pw nm now salt pwSalt v h
    unfold register
    split
    · rfl
    · exact (rowsOf_generateTokens_ne (Ne.symm h)).trans rfl
  · intro db email pw now salt v h
    cases hf : db.users.find? (fun x => x.email == email) with
    | none => simp only [login, loginWithTrace, hf]
    | some u =>
      simp only [login, loginWithTrace, hf]
      split
      · exact rowsOf_generateTokens_ne (h u hf)
      · rfl
  · intro db tok now salt v hne hnd
    cases hphase : refreshMatchPhase db tok now with
    | err e => simp only [refresh, hphase]
    | reuse uid =>
      simp only [refresh, hphase]
      have huid := matchPhase_reuse hphase
      subst huid
      exact rowsOf_wipeUser_ne hne
    | matched m =>
      simp only [refresh, hphase]
      obtain ⟨hmem, hsub, -, hufind⟩ := matchPhase_matched hphase
      have hmuid : m.user.id = m.row.userId := by
        simpa using List.find?_some hufind
      unfold rotateCommit
      split
      · refine (rowsOf_generateTokens_ne ?_).trans ?_
        · show m.user.id ≠ v
          rw [hmuid, hsub]
          exact Ne.symm hne
        · simp only [rowsOf]
          rw [filter_swap]
          refine List.filter_eq_self.mpr ?_
          intro a ha
          obtain ⟨hal, hav⟩ := List.mem_filter.mp ha
          have havv : a.userId = v := by simpa using hav
          simp only [bne_iff_ne, ne_eq]
          intro hid
          have haeq : a = m.row := List.inj_on_of_nodup_map hnd hal hmem hid
          exact hne (by rw [← havv, haeq, hsub])
      · rfl

/-- Witness for C10 across the four operations on concrete states. -/
theorem auth_ops_cross_user_frame_witness :
    rowsOf (logout exDb "u0").2 "u9" = rowsOf exDb "u9" ∧
    rowsOf (register exDb "bob@x.com" "pw" "Bob" 5000 21 22).2 "u0" =
      rowsOf exDb "u0" ∧
    rowsOf (login exLoginDb "real@x.com" "correct" 5000 23).2 "zz" =
      rowsOf exLoginDb "zz" ∧
    rowsOf (refresh exDb exT 2000 12).2 "u9" = rowsOf exDb "u9" :=
  ⟨auth_ops_cross_user_frame.1 exDb "u0" "u9" (by decide),
   auth_ops_cross_user_frame.2.1 exDb "bob@x.com" "pw" "Bob" 5000 21 22 "u0"
     (by decide),
   auth_ops_cross_user_frame.2.2.1 exLoginDb "real@x.com" "correct" 5000 23 "zz"
     (fun u hu => by
        have h0 : exLoginDb.users.find? (fun x => x.email == "real@x.com") =
            some ⟨"u9", "real@x.com", ⟨"correct", 3⟩, "Bob"⟩ := by decide
        rw [h0] at hu
        cases hu
        decide),
   auth_ops_cross_user_frame.2.2.2 exDb exT 2000 12 "u9" (by decide)
     (by decide)⟩

end AuthCore
